import Mathlib

/-!
Verification development for the kota interactive agent CLI.

The Lean definitions below are a shallow embedding of the Rust sources:
  * `src/tools/grep_search.rs` — the recursive regex code-search tool
    (`GrepSearchTool::call`, `search_in_file`, `should_skip_directory`,
    `is_text_file`);
  * `src/kota_cli/command.rs` — the command dispatcher
    (`KotaCli::handle_command`, `load_session`, `delete_session`, and the
    conversational branch);
  * `src/hooks.rs` — the streaming observation hook (`SessionIdHook`).

Rust string primitives (`str::starts_with`, `str::trim`, `str::lines`,
`Path::extension`, byte-offset regex matching) are embedded as explicit
functions over `String.data` (the list of characters), so that every
definition evaluates inside the kernel.  The regex engine itself and the
provider streaming engine are external crates; they enter the embedding as
parameters (a compiled matcher `String → Option (Nat × Nat)` mirroring
`Regex::find` on a line, and a provider turn oracle).  The session context
store (`ContextManager`, module `context`, not part of the published
sources) is modelled from the specification; those definitions carry a
`Modelled from the spec:` doc comment.
-/

/-- Embedding of Rust `str::starts_with`: character-prefix test. -/
def strStartsWith (s p : String) : Bool :=
  p.data.isPrefixOf s.data

/-- Embedding of Rust `str::trim`: drop Unicode whitespace from both ends. -/
def strTrim (s : String) : String :=
  ⟨((s.data.dropWhile Char.isWhitespace).reverse.dropWhile Char.isWhitespace).reverse⟩

/-- Embedding of Rust `str::to_lowercase` (ASCII-faithful, which is all the
source compares after it). -/
def strLower (s : String) : String :=
  ⟨s.data.map Char.toLower⟩

/-- Split a character list at every occurrence of the separator character.
Always returns at least one (possibly empty) piece, like Rust `split`. -/
def splitChar (sep : Char) : List Char → List (List Char)
  | [] => [[]]
  | c :: rest =>
    match splitChar sep rest with
    | [] => [[c]]
    | h :: t => if c = sep then [] :: h :: t else (c :: h) :: t

/-- Strip one trailing carriage return, as Rust `str::lines` does on a piece
that was terminated by a line feed. -/
def stripCarriageReturn (cs : List Char) : List Char :=
  match cs.getLast? with
  | some c => if c = '\r' then cs.dropLast else cs
  | none => cs

/-- Embedding of Rust `str::lines`: split at `\n` (also eating a preceding
`\r`), with the final line ending optional and no trailing empty line. -/
def rustLines (s : String) : List String :=
  match (splitChar '\n' s.data).reverse with
  | [] => []
  | last :: initRev =>
    let init := (initRev.reverse).map (fun cs => String.mk (stripCarriageReturn cs))
    if last = [] then init else init ++ [String.mk last]

/-- UTF-8 byte length of a character list, mirroring Rust `str::len`. -/
def utf8Len (cs : List Char) : Nat :=
  cs.foldl (fun n c => n + c.utf8Size) 0

/-- Embedding of `regex::Regex::find` for a literal pattern: byte offsets of
the leftmost occurrence of `pat` in `line`.  Used to instantiate the
matcher parameter of the search engine on concrete inputs. -/
def litFindAux (pat : List Char) : List Char → Nat → Option (Nat × Nat)
  | cs, ofs =>
    if pat.isPrefixOf cs then some (ofs, ofs + utf8Len pat)
    else
      match cs with
      | [] => none
      | c :: rest => litFindAux pat rest (ofs + c.utf8Size)

/-- Leftmost literal match of `pat` in `line`, as byte offsets. -/
def litFind (pat line : String) : Option (Nat × Nat) :=
  litFindAux pat.data line.data 0

/-! ## Data model of `src/tools/grep_search.rs` -/

/-- The error type of the file tools; `GrepSearchTool::call` only ever
produces the `FileNotFound` variant. -/
inductive FileToolError where
  | FileNotFound (path : String)
deriving DecidableEq

/-- Embedding of `SearchMatch` (grep_search.rs, lines 18–25). -/
structure SearchMatch where
  file_path : String
  line_number : Nat
  line_content : String
  match_start : Nat
  match_end : Nat
deriving DecidableEq

/-- Embedding of `GrepSearchOutput` (grep_search.rs, lines 27–36). -/
structure GrepSearchOutput where
  root_path : String
  query : String
  match_list : List SearchMatch
  total_matches : Nat
  files_searched : Nat
  success : Bool
  message : String
deriving DecidableEq

/-!
A file tree as walked by `walkdir::WalkDir`: a file carries the result
of `fs::read_to_string` (`none` when the file is not readable as text), a
directory carries its children in traversal order.
-/

mutual
inductive FSEntry where
  | file (name : String) (content : Option String)
  | dir (name : String) (entries : FSList)
inductive FSList where
  | nil
  | cons (e : FSEntry) (rest : FSList)
end

/-- Convenience constructor for `FSList` from a `List`. -/
def fsList : List FSEntry → FSList
  | [] => .nil
  | e :: rest => .cons e (fsList rest)

/-- Name of an entry, as `walkdir::DirEntry::file_name` reports it (the
final path component). -/
def entryName : FSEntry → String
  | .file n _ => n
  | .dir n _ => n

/-- Embedding of `Path::extension` composed with lowercasing, as used by
`GrepSearchTool::is_text_file`: `none` when the file name has no dot, or
consists of a single leading dot; otherwise the part after the final dot. -/
def rustExtension (name : String) : Option String :=
  let parts := splitChar '.' name.data
  match parts with
  | [] => none
  | [_] => none
  | first :: _ :: _ =>
    if first = [] ∧ parts.length = 2 then none
    else (parts.getLast?).map (fun cs => strLower (String.mk cs))

/-- The extension allow-list of `GrepSearchTool::is_text_file`
(grep_search.rs, lines 46–181). -/
def textExtensions : List String :=
  ["rs", "py", "js", "ts", "jsx", "tsx", "html", "css", "scss", "sass",
   "json", "xml", "yaml", "yml", "toml", "md", "txt", "csv", "sql", "sh",
   "bash", "zsh", "fish", "ps1", "bat", "cmd", "c", "cpp", "cc", "cxx",
   "h", "hpp", "hxx", "java", "kt", "scala", "go", "php", "rb", "swift",
   "dart", "r", "m", "mm", "pl", "pm", "lua", "vim", "el", "clj", "cljs",
   "hs", "ml", "fs", "fsx", "ex", "exs", "erl", "hrl", "nim", "cr", "d",
   "zig", "v", "jl", "rkt", "scm", "ss", "lisp", "lsp", "cl", "asd",
   "pro", "prolog", "dockerfile", "makefile", "mk", "cmake", "gradle",
   "sbt", "pom", "gemfile", "rakefile", "podfile", "cartfile", "brewfile",
   "vagrantfile", "gitignore", "gitattributes", "editorconfig", "eslintrc",
   "prettierrc", "babelrc", "tsconfig", "jsconfig", "webpack", "rollup",
   "vite", "package", "lock", "sum", "mod", "ini", "cfg", "conf", "config",
   "properties", "env", "example", "sample", "template", "stub", "proto",
   "graphql", "gql", "schema", "prisma", "ddl", "dml", "hql", "cql",
   "psql", "mysql", "sqlite", "db", "log", "out", "err", "trace", "debug",
   "info", "warn", "error", "fatal"]

/-- The extensionless file-name allow-list of `GrepSearchTool::is_text_file`
(grep_search.rs, lines 186–207). -/
def textFilenames : List String :=
  ["readme", "license", "changelog", "authors", "contributors", "makefile",
   "dockerfile", "vagrantfile", "gemfile", "rakefile", "podfile",
   "cartfile", "brewfile", "procfile", "justfile", "taskfile", "buildfile",
   "gradlew", "mvnw"]

/-- Embedding of `GrepSearchTool::is_text_file` on the final path
component: extension allow-list first, else exact (lowercased) file-name
allow-list. -/
def is_text_file (name : String) : Bool :=
  match rustExtension name with
  | some ext => textExtensions.contains ext
  | none => textFilenames.contains (strLower name)

/-- Embedding of `GrepSearchTool::should_skip_directory`
(grep_search.rs, lines 214–253). -/
def shouldSkipDirectory (dir_name : String) : Bool :=
  ["target", "node_modules", "__pycache__", ".git", ".svn", ".hg", ".bzr",
   "dist", "build", "out", "bin", "obj", ".vscode", ".idea", ".vs",
   "coverage", ".nyc_output", ".pytest_cache", ".tox", "venv", "env",
   ".env", "vendor", "deps", "_build", ".elixir_ls", ".mix", "tmp", "temp",
   "cache", ".cache", "logs", "log", ".DS_Store", "Thumbs.db"].contains dir_name

/-- Per-line scan of `GrepSearchTool::search_in_file` (grep_search.rs,
lines 274–288): stop when `current_matches + matches.len()` reaches the
cap, record at most the first regex match of each line, 1-indexed. -/
def searchLinesAux (find : String → Option (Nat × Nat)) (file_path : String)
    (max_results : Nat) : List String → Nat → Nat → List SearchMatch
  | [], _, _ => []
  | line :: rest, line_number, cnt =>
    if max_results ≤ cnt then []
    else
      match find line with
      | some (s, e) =>
        { file_path := file_path, line_number := line_number + 1,
          line_content := line, match_start := s, match_end := e } ::
          searchLinesAux find file_path max_results rest (line_number + 1) (cnt + 1)
      | none => searchLinesAux find file_path max_results rest (line_number + 1) cnt

/-- Embedding of `GrepSearchTool::search_in_file` (grep_search.rs,
lines 255–291).  `content = none` models a file that cannot be read as
text, which the source skips with an empty result. -/
def search_in_file (find : String → Option (Nat × Nat)) (file_path : String)
    (content : Option String) (max_results current_matches : Nat) : List SearchMatch :=
  if current_matches ≥ max_results then []
  else
    match content with
    | none => []
    | some c => searchLinesAux find file_path max_results (rustLines c) 0 current_matches

/-- Running state of the directory walk in `GrepSearchTool::call`:
`all_matches` and `files_searched`. -/
structure WalkState where
  match_list : List SearchMatch
  files_searched : Nat
deriving DecidableEq

/-!
Embedding of the `WalkDir` loop of `GrepSearchTool::call`
(grep_search.rs, lines 357–390).  `walkEntry` processes one yielded entry:
the `filter_entry` predicate prunes denylisted and dot-prefixed
directories (their contents are never visited), the cap check at the top
of the loop body freezes the state once `max_results` matches have
accumulated, and every text file that is reached is opened and counted.
-/

mutual
def walkEntry (find : String → Option (Nat × Nat)) (max_results : Nat)
    (path : String) (st : WalkState) : FSEntry → WalkState
  | .file name content =>
    if max_results ≤ st.match_list.length then st
    else if is_text_file name then
      { match_list := st.match_list ++ search_in_file find path content max_results st.match_list.length,
        files_searched := st.files_searched + 1 }
    else st
  | .dir name entries =>
    if shouldSkipDirectory name || strStartsWith name "." then st
    else if max_results ≤ st.match_list.length then st
    else walkList find max_results path st entries

def walkList (find : String → Option (Nat × Nat)) (max_results : Nat)
    (path : String) (st : WalkState) : FSList → WalkState
  | .nil => st
  | .cons e rest =>
    walkList find max_results path
      (walkEntry find max_results (path ++ "/" ++ entryName e) st e) rest
end

/-- The three summary shapes of `GrepSearchTool::call`
(grep_search.rs, lines 394–409): zero matches, capped, uncapped. -/
inductive SummaryKind where
  | noMatches
  | capped
  | uncapped
deriving DecidableEq

/-- Which summary branch the source takes, from its two conditions
`total_matches == 0` and `total_matches >= max_results`. -/
def summaryKind (total max_results : Nat) : SummaryKind :=
  if total = 0 then .noMatches
  else if max_results ≤ total then .capped
  else .uncapped

/-- The summary text of each branch (grep_search.rs, lines 394–409). -/
def summaryMessage (kind : SummaryKind) (total : Nat) (query : String)
    (files : Nat) : String :=
  match kind with
  | .noMatches => "No matches found for '" ++ query ++ "' in " ++ toString files ++ " files"
  | .capped =>
    "Found " ++ toString total ++ " matches (limit reached) for '" ++ query ++
      "' in " ++ toString files ++ " files"
  | .uncapped =>
    "Found " ++ toString total ++ " matches for '" ++ query ++ "' in " ++
      toString files ++ " files"

/-- The successful-search tail of `GrepSearchTool::call` (grep_search.rs,
lines 353–419): walk the tree from the root entry, then assemble the
output record and summary message. -/
def grepOk (find : String → Option (Nat × Nat)) (root_path query : String)
    (root : FSEntry) (max_results : Nat) : GrepSearchOutput :=
  let st := walkEntry find max_results root_path ⟨[], 0⟩ root
  let total := st.match_list.length
  { root_path := root_path, query := query, match_list := st.match_list,
    total_matches := total, files_searched := st.files_searched,
    success := true,
    message := summaryMessage (summaryKind total max_results) total query st.files_searched }

/-- Embedding of `GrepSearchTool::call` (grep_search.rs, lines 327–420).
`compiled` is the result of `Regex::new(query)` (the regex crate is
external): `Except.error e` carries the regex error text; `root = none`
models a non-existent `root_path`; `max_results = none` models an absent
argument, defaulted to 100. -/
def grepCall (compiled : Except String (String → Option (Nat × Nat)))
    (root_path query : String) (root : Option FSEntry)
    (max_results : Option Nat) : Except FileToolError GrepSearchOutput :=
  let maxr := max_results.getD 100
  match root with
  | none => .error (.FileNotFound root_path)
  | some r =>
    match compiled with
    | .error e =>
      .ok { root_path := root_path, query := query, match_list := [],
            total_matches := 0, files_searched := 0, success := false,
            message := "Invalid regex pattern: " ++ e }
    | .ok find => .ok (grepOk find root_path query r maxr)


/-! ## Lemmas about the search engine -/

/-- The per-line scan never pushes the cumulative match count past the cap. -/
theorem searchLinesAux_length_le (find : String → Option (Nat × Nat)) (fp : String)
    (maxr : Nat) :
    ∀ (lines : List String) (n cnt : Nat), cnt ≤ maxr →
      cnt + (searchLinesAux find fp maxr lines n cnt).length ≤ maxr := by
  intro lines
  induction lines with
  | nil => intro n cnt h; simpa [searchLinesAux] using h
  | cons line rest ih =>
    intro n cnt h
    rw [searchLinesAux]
    by_cases hc : maxr ≤ cnt
    · simpa [hc] using h
    · simp only [hc, if_false]
      cases hf : find line with
      | some pr =>
        obtain ⟨s, e⟩ := pr
        have := ih (n + 1) (cnt + 1) (by omega)
        simp only [List.length_cons]
        omega
      | none => exact ih (n + 1) cnt h

/-- `search_in_file` never pushes the cumulative match count past the cap. -/
theorem search_in_file_length_le (find : String → Option (Nat × Nat)) (fp : String)
    (c : Option String) (maxr cur : Nat) (h : cur ≤ maxr) :
    cur + (search_in_file find fp c maxr cur).length ≤ maxr := by
  rw [search_in_file.eq_def]
  by_cases hc : cur ≥ maxr
  · simpa [hc] using h
  · simp only [hc, if_false]
    cases c with
    | none => simpa using h
    | some cc => exact searchLinesAux_length_le find fp maxr (rustLines cc) 0 cur h

/-- Once the cap is reached, `search_in_file` returns nothing. -/
theorem search_in_file_stop (find : String → Option (Nat × Nat)) (fp : String)
    (c : Option String) (maxr cur : Nat) (h : maxr ≤ cur) :
    search_in_file find fp c maxr cur = [] := by
  rw [search_in_file.eq_def]
  simp [Nat.le_of_lt, h]

/-- Once the cap is reached, a yielded entry leaves the walk state untouched. -/
theorem walkEntry_stop (find : String → Option (Nat × Nat)) (maxr : Nat)
    (path : String) (st : WalkState) (h : maxr ≤ st.match_list.length) :
    ∀ e : FSEntry, walkEntry find maxr path st e = st
  | .file name content => by rw [walkEntry]; simp [h]
  | .dir name entries => by
    rw [walkEntry]
    by_cases hs : (shouldSkipDirectory name || strStartsWith name ".") = true
    · simp [hs]
    · simp [hs, h]

/-- Once the cap is reached, the rest of the traversal leaves the state
untouched. -/
theorem walkList_stop (find : String → Option (Nat × Nat)) (maxr : Nat)
    (path : String) (st : WalkState) (h : maxr ≤ st.match_list.length) :
    ∀ es : FSList, walkList find maxr path st es = st
  | .nil => by rw [walkList]
  | .cons e rest => by
    rw [walkList, walkEntry_stop find maxr _ st h e]
    exact walkList_stop find maxr path st h rest

mutual
/-- The walk keeps the accumulated match count at or below the cap. -/
theorem walkEntry_length_le (find : String → Option (Nat × Nat)) (maxr : Nat) :
    ∀ (path : String) (st : WalkState), st.match_list.length ≤ maxr →
      ∀ e : FSEntry, (walkEntry find maxr path st e).match_list.length ≤ maxr
  | path, st, h, .file name content => by
    rw [walkEntry]
    by_cases hc : maxr ≤ st.match_list.length
    · simpa [hc] using h
    · by_cases ht : is_text_file name = true
      · simp only [hc, if_false, ht, if_true]
        have := search_in_file_length_le find path content maxr st.match_list.length h
        simp only [List.length_append]
        omega
      · simp [hc, ht, h]
  | path, st, h, .dir name entries => by
    rw [walkEntry]
    by_cases hs : (shouldSkipDirectory name || strStartsWith name ".") = true
    · simpa [hs] using h
    · by_cases hc : maxr ≤ st.match_list.length
      · simpa [hs, hc] using h
      · simpa [hs, hc] using walkList_length_le find maxr path st h entries

/-- The traversal keeps the accumulated match count at or below the cap. -/
theorem walkList_length_le (find : String → Option (Nat × Nat)) (maxr : Nat) :
    ∀ (path : String) (st : WalkState), st.match_list.length ≤ maxr →
      ∀ es : FSList, (walkList find maxr path st es).match_list.length ≤ maxr
  | path, st, h, .nil => by rw [walkList]; exact h
  | path, st, h, .cons e rest => by
    rw [walkList]
    exact walkList_length_le find maxr path _
      (walkEntry_length_le find maxr _ st h e) rest
end

/-- The summary picks its capped branch exactly at a reached, positive cap,
provided the total respects the cap. -/
theorem summaryKind_capped_iff (total maxr : Nat) (h : total ≤ maxr) :
    summaryKind total maxr = .capped ↔ (total = maxr ∧ 0 < maxr) := by
  unfold summaryKind
  by_cases h0 : total = 0
  · by_cases hm : maxr ≤ total
    · simp [h0, hm]; omega
    · simp [h0, hm]; omega
  · by_cases hm : maxr ≤ total
    · simp [h0, hm]; omega
    · simp [h0, hm]; omega

deriving instance DecidableEq for Except

/-- The `filter_entry` predicate of `GrepSearchTool::call` rejects
denylisted and dot-prefixed directories, so such an entry leaves the walk
state untouched and its contents are never visited. -/
theorem walkEntry_pruned (find : String → Option (Nat × Nat)) (maxr : Nat)
    (path : String) (st : WalkState) (name : String) (entries : FSList)
    (h : (shouldSkipDirectory name || strStartsWith name ".") = true) :
    walkEntry find maxr path st (.dir name entries) = st := by
  rw [walkEntry, h]
  rfl

/-- A nonempty string followed by anything is still nonempty. -/
theorem strAppend_ne_empty (s t : String) (hs : s.data ≠ []) : s ++ t ≠ "" := by
  obtain ⟨a⟩ := s
  obtain ⟨b⟩ := t
  intro h
  have hd : a ++ b = [] := congrArg String.data h
  exact hs (List.append_eq_nil.mp hd).1

/-! ## Claims about the code search engine -/

/-- C1: for every `GrepSearchTool::call` with a valid regex and
`max_results = m`, the returned `total_matches` never exceeds `m`; the
per-file scan and the traversal stop contributing as soon as the
cumulative count reaches `m`; the summary message takes its
limit-reached shape exactly when `total_matches = m` and `m > 0`; and
with `m = 1` against a file holding two matching lines the call returns
exactly one match together with the limit-reached message. -/
theorem grep_global_cap :
    (∀ (find : String → Option (Nat × Nat)) (rp q : String) (root : FSEntry) (m : Nat),
        grepCall (.ok find) rp q (some root) (some m) = .ok (grepOk find rp q root m)) ∧
    (∀ (find : String → Option (Nat × Nat)) (rp q : String) (root : FSEntry) (m : Nat),
        (grepOk find rp q root m).total_matches ≤ m) ∧
    (∀ (find : String → Option (Nat × Nat)) (rp q : String) (root : FSEntry) (m : Nat),
        summaryKind (grepOk find rp q root m).total_matches m = .capped ↔
          ((grepOk find rp q root m).total_matches = m ∧ 0 < m)) ∧
    (∀ (find : String → Option (Nat × Nat)) (rp q : String) (root : FSEntry) (m : Nat),
        (grepOk find rp q root m).message =
          summaryMessage (summaryKind (grepOk find rp q root m).total_matches m)
            (grepOk find rp q root m).total_matches q
            (grepOk find rp q root m).files_searched) ∧
    (∀ (find : String → Option (Nat × Nat)) (fp : String) (c : Option String) (m cur : Nat),
        m ≤ cur → search_in_file find fp c m cur = []) ∧
    (∀ (find : String → Option (Nat × Nat)) (m : Nat) (p : String) (st : WalkState)
        (e : FSEntry), m ≤ st.match_list.length → walkEntry find m p st e = st) ∧
    (grepOk (litFind "foo") "notes.txt" "foo" (.file "notes.txt" (some "foo\nfoo")) 1 =
      { root_path := "notes.txt", query := "foo",
        match_list := [⟨"notes.txt", 1, "foo", 0, 3⟩], total_matches := 1,
        files_searched := 1, success := true,
        message := "Found 1 matches (limit reached) for 'foo' in 1 files" }) := by
  refine ⟨fun _ _ _ _ _ => rfl, ?_, ?_, fun _ _ _ _ _ => rfl, ?_, ?_, by decide⟩
  · intro find rp q root m
    exact walkEntry_length_le find m rp ⟨[], 0⟩ (Nat.zero_le m) root
  · intro find rp q root m
    exact summaryKind_capped_iff _ m
      (walkEntry_length_le find m rp ⟨[], 0⟩ (Nat.zero_le m) root)
  · intro find fp c m cur h
    exact search_in_file_stop find fp c m cur h
  · intro find m p st e h
    exact walkEntry_stop find m p st h e

/-- Witness for C1: the early-stop conjuncts applied at concrete inputs. -/
theorem grep_global_cap_witness :
    ((1 : Nat) ≤ 2 ∧ search_in_file (litFind "foo") "f.txt" (some "foo") 1 2 = []) ∧
    ((1 : Nat) ≤ 1 ∧
      walkEntry (litFind "foo") 1 "r" ⟨[⟨"r/a.txt", 1, "foo", 0, 3⟩], 1⟩
        (.file "b.txt" (some "foo")) = ⟨[⟨"r/a.txt", 1, "foo", 0, 3⟩], 1⟩) :=
  ⟨⟨by decide, grep_global_cap.2.2.2.2.1 (litFind "foo") "f.txt" (some "foo") 1 2 (by decide)⟩,
   ⟨by decide, grep_global_cap.2.2.2.2.2.1 (litFind "foo") 1 "r"
      ⟨[⟨"r/a.txt", 1, "foo", 0, 3⟩], 1⟩ (.file "b.txt" (some "foo")) (by decide)⟩⟩

/-- C2: when `root_path` exists but the pattern does not compile,
`GrepSearchTool::call` returns `Ok` with `success = false`, an empty
match list, zero totals, zero files searched, and a nonempty message
naming the invalid pattern. -/
theorem grep_invalid_regex (e rp q : String) (root : FSEntry) (mr : Option Nat) :
    grepCall (.error e) rp q (some root) mr =
      .ok { root_path := rp, query := q, match_list := [], total_matches := 0,
            files_searched := 0, success := false,
            message := "Invalid regex pattern: " ++ e } ∧
    "Invalid regex pattern: " ++ e ≠ "" :=
  ⟨rfl, strAppend_ne_empty "Invalid regex pattern: " e (by decide)⟩

/-- C3: searching `foo` with `max_results = 10` in a directory holding
`a.txt` ("foo bar"), `b.py` ("foo") and `node_modules/c.txt` returns
exactly the two matches from `a.txt` line 1 and `b.py` line 1 with two
files searched — for every possible content of `node_modules`, whose
subtree is pruned before descending and never opened. -/
theorem grep_prune_scenario (sub : FSList) :
    grepCall (.ok (litFind "foo")) "proj" "foo"
      (some (.dir "proj" (.cons (.file "a.txt" (some "foo bar"))
        (.cons (.file "b.py" (some "foo"))
          (.cons (.dir "node_modules" sub) .nil))))) (some 10) =
    .ok { root_path := "proj", query := "foo",
          match_list := [⟨"proj/a.txt", 1, "foo bar", 0, 3⟩, ⟨"proj/b.py", 1, "foo", 0, 3⟩],
          total_matches := 2, files_searched := 2, success := true,
          message := "Found 2 matches for 'foo' in 2 files" } := by
  have ha : walkEntry (litFind "foo") 10 "proj/a.txt" ⟨[], 0⟩
      (.file "a.txt" (some "foo bar")) = ⟨[⟨"proj/a.txt", 1, "foo bar", 0, 3⟩], 1⟩ := by
    decide
  have hb : walkEntry (litFind "foo") 10 "proj/b.py"
      ⟨[⟨"proj/a.txt", 1, "foo bar", 0, 3⟩], 1⟩ (.file "b.py" (some "foo")) =
      ⟨[⟨"proj/a.txt", 1, "foo bar", 0, 3⟩, ⟨"proj/b.py", 1, "foo", 0, 3⟩], 2⟩ := by
    decide
  have hwalk : walkEntry (litFind "foo") 10 "proj" ⟨[], 0⟩
      (.dir "proj" (.cons (.file "a.txt" (some "foo bar"))
        (.cons (.file "b.py" (some "foo"))
          (.cons (.dir "node_modules" sub) .nil)))) =
      ⟨[⟨"proj/a.txt", 1, "foo bar", 0, 3⟩, ⟨"proj/b.py", 1, "foo", 0, 3⟩], 2⟩ := by
    rw [walkEntry]
    rw [if_neg (by decide :
      ¬ ((shouldSkipDirectory "proj" || strStartsWith "proj" ".") = true))]
    rw [if_neg (by decide : ¬ (10 ≤ (⟨[], 0⟩ : WalkState).match_list.length))]
    rw [walkList]
    rw [show entryName (FSEntry.file "a.txt" (some "foo bar")) = "a.txt" from rfl]
    rw [show ("proj" ++ "/" ++ "a.txt") = "proj/a.txt" from by decide]
    rw [ha, walkList]
    rw [show entryName (FSEntry.file "b.py" (some "foo")) = "b.py" from rfl]
    rw [show ("proj" ++ "/" ++ "b.py") = "proj/b.py" from by decide]
    rw [hb, walkList]
    rw [walkEntry_pruned (litFind "foo") 10 _ _ "node_modules" sub (by decide)]
    rw [walkList]
  show Except.ok (grepOk (litFind "foo") "proj" "foo" _ 10) = _
  simp only [grepOk]
  rw [hwalk]
  decide

/-- C10: when the final component of `root_path` is itself a denylisted or
dot-prefixed directory name, the `filter_entry` predicate rejects the root
entry, so the call succeeds with zero matches and zero files searched no
matter what lies beneath the root. -/
theorem grep_pruned_root (find : String → Option (Nat × Nat)) (rp q nm : String)
    (entries : FSList) (mr : Option Nat)
    (h : shouldSkipDirectory nm = true ∨ strStartsWith nm "." = true) :
    grepCall (.ok find) rp q (some (.dir nm entries)) mr =
      .ok { root_path := rp, query := q, match_list := [], total_matches := 0,
            files_searched := 0, success := true,
            message := summaryMessage .noMatches 0 q 0 } := by
  have hcond : (shouldSkipDirectory nm || strStartsWith nm ".") = true := by
    rcases h with h | h <;> simp [h]
  show Except.ok (grepOk find rp q (.dir nm entries) (mr.getD 100)) = _
  unfold grepOk
  rw [walkEntry, hcond]
  rfl

/-- Witness for C10: a match-bearing eligible file sits directly beneath the
roots "." and "build", yet both calls return zero matches and zero files
searched; the same contents under an unpruned root name produce a match. -/
theorem grep_pruned_root_witness :
    (strStartsWith "." "." = true) ∧ (shouldSkipDirectory "build" = true) ∧
    (grepCall (.ok (litFind "foo")) "." "foo"
        (some (.dir "." (.cons (.file "a.txt" (some "foo")) .nil))) (some 10) =
      .ok { root_path := ".", query := "foo", match_list := [], total_matches := 0,
            files_searched := 0, success := true,
            message := summaryMessage .noMatches 0 "foo" 0 }) ∧
    (grepCall (.ok (litFind "foo")) "build" "foo"
        (some (.dir "build" (.cons (.file "a.txt" (some "foo")) .nil))) none =
      .ok { root_path := "build", query := "foo", match_list := [], total_matches := 0,
            files_searched := 0, success := true,
            message := summaryMessage .noMatches 0 "foo" 0 }) ∧
    (grepCall (.ok (litFind "foo")) "proj" "foo"
        (some (.dir "proj" (.cons (.file "a.txt" (some "foo")) .nil))) (some 10) =
      .ok { root_path := "proj", query := "foo",
            match_list := [⟨"proj/a.txt", 1, "foo", 0, 3⟩], total_matches := 1,
            files_searched := 1, success := true,
            message := "Found 1 matches for 'foo' in 1 files" }) :=
  ⟨by decide, by decide,
   grep_pruned_root (litFind "foo") "." "foo" "."
     (.cons (.file "a.txt" (some "foo")) .nil) (some 10) (Or.inr (by decide)),
   grep_pruned_root (litFind "foo") "build" "foo" "build"
     (.cons (.file "a.txt" (some "foo")) .nil) none (Or.inl (by decide)),
   by decide⟩

/-! ## Data model of `src/kota_cli/command.rs` and the session store -/

/-- Message role, from the `Message::user` / `Message::assistant`
constructors used by the dispatcher. -/
inductive Role where
  | user
  | assistant
deriving DecidableEq

/-- A conversation message as the dispatcher appends it. -/
structure Msg where
  role : Role
  content : String
deriving DecidableEq

/-- Embedding of `rig::completion::Message::user`. -/
def Msg.user (s : String) : Msg := ⟨.user, s⟩

/-- Embedding of `rig::completion::Message::assistant`. -/
def Msg.assistant (s : String) : Msg := ⟨.assistant, s⟩

/-- Modelled from the spec: the durable session store of the
`ContextManager` (module `context`, absent from the published sources) —
one record per session identifier, holding the ordered message sequence. -/
abbrev Store := List (String × List Msg)

/-- Modelled from the spec: `save` writes the full message sequence,
overwriting any prior persisted content for that identifier. -/
def storeSave (store : Store) (sid : String) (msgs : List Msg) : Store :=
  (sid, msgs) :: (store.filter fun p => !(p.1 == sid))

/-- Modelled from the spec: `load` returns the persisted sequence when a
record exists for the identifier, and nothing otherwise. -/
def storeLoad (store : Store) (sid : String) : Option (List Msg) :=
  (store.find? fun p => p.1 == sid).map Prod.snd

/-- Modelled from the spec: `delete` removes the record and reports whether
one existed; a miss is `false`, not an error. -/
def storeDelete (store : Store) (sid : String) : Bool × Store :=
  if store.any fun p => p.1 == sid then
    (true, store.filter fun p => !(p.1 == sid))
  else (false, store)

/-- Modelled from the spec: `add_message` appends and then evicts the
oldest messages so that the sequence never exceeds the
maximum-message-count bound. -/
def addMessage (msgs : List Msg) (m : Msg) (maxMessages : Nat) : List Msg :=
  let l := msgs ++ [m]
  if maxMessages < l.length then l.drop (l.length - maxMessages) else l

/-- The in-memory side of the `ContextManager` held by `KotaCli`: active
session identifier, message sequence, message-count bound. -/
structure ContextState where
  sessionId : String
  messages : List Msg
  maxMessages : Nat
deriving DecidableEq

/-- The dispatcher state: the owned context plus the durable store that the
`ContextManager` reads and writes. -/
structure CliState where
  ctx : ContextState
  store : Store
deriving DecidableEq

/-- Observable output of one dispatched input line: which branch of
`KotaCli::handle_command` ran and what it reported. -/
inductive Event where
  | showedConfig
  | showedHelp
  | showedHistory
  | listedSessions
  | deleteUsage
  | unknownCommand (input : String)
  | loadedSession (sid : String)
  | createdNewSession (sid : String)
  | deleteForbidden
  | deletedSession (sid : String)
  | deleteNotFound (sid : String)
  | assistantResponded (text : String) (tokens : Nat)
  | exchangeFailed (err : String)
deriving DecidableEq

/-- The final answer of one streamed exchange: `resp.response()` and
`resp.usage().total_tokens`. -/
structure AgentResponse where
  response : String
  totalTokens : Nat
deriving DecidableEq

/-- Embedding of `KotaCli::load_session` (command.rs, lines 277–324): save
the current session, switch the active identifier, then load — reporting a
freshly created empty session when no record existed. -/
def loadSession (st : CliState) (sid : String) : CliState × List Event :=
  let store1 := storeSave st.store st.ctx.sessionId st.ctx.messages
  match storeLoad store1 sid with
  | some msgs =>
    (⟨⟨sid, msgs, st.ctx.maxMessages⟩, store1⟩, [.loadedSession sid])
  | none =>
    (⟨⟨sid, [], st.ctx.maxMessages⟩, store1⟩, [.createdNewSession sid])

/-- Embedding of `KotaCli::delete_session` (command.rs, lines 326–362):
refuse when the identifier is the active session, otherwise delete through
a temporary `ContextManager` over the same storage root. -/
def deleteSession (st : CliState) (sid : String) : CliState × List Event :=
  if sid = st.ctx.sessionId then (st, [.deleteForbidden])
  else
    match storeDelete st.store sid with
    | (true, store1) => (⟨st.ctx, store1⟩, [.deletedSession sid])
    | (false, _) => (st, [.deleteNotFound sid])

/-- Embedding of the conversational branch of `KotaCli::handle_command`
(command.rs, lines 49–135): append the user message, run the exchange
(its outcome is the `ex` parameter), then on success append the assistant
reply and save, and on failure only report the error. -/
def conversationalTurn (st : CliState) (input : String)
    (ex : Except String AgentResponse) : CliState × List Event :=
  let msgs1 := addMessage st.ctx.messages (Msg.user input) st.ctx.maxMessages
  match ex with
  | .ok r =>
    let msgs2 := addMessage msgs1 (Msg.assistant r.response) st.ctx.maxMessages
    (⟨⟨st.ctx.sessionId, msgs2, st.ctx.maxMessages⟩,
      storeSave st.store st.ctx.sessionId msgs2⟩,
     [.assistantResponded r.response r.totalTokens])
  | .error e =>
    (⟨⟨st.ctx.sessionId, msgs1, st.ctx.maxMessages⟩, st.store⟩, [.exchangeFailed e])

/-- Embedding of `KotaCli::handle_command` (command.rs, lines 15–139): the
match over one input line, in source order — exact commands first, then
the `/load ` and `/delete ` guards (note the trailing space in both
patterns), then the unknown-slash-command fallback, then the
conversational branch.  Returns the continue flag of the loop. -/
def handleCommand (st : CliState) (input : String)
    (ex : Except String AgentResponse) : Bool × CliState × List Event :=
  if input = "/quit" ∨ input = "/exit" then (false, st, [])
  else if input = "/config" then (true, st, [.showedConfig])
  else if input = "/help" then (true, st, [.showedHelp])
  else if input = "/history" then (true, st, [.showedHistory])
  else if strStartsWith input "/load " then
    let sid := strTrim (input.drop 6)
    if sid = "" then (true, st, [.listedSessions])
    else (true, loadSession st sid)
  else if strStartsWith input "/delete " then
    let sid := strTrim (input.drop 8)
    if ¬ sid = "" then (true, deleteSession st sid)
    else (true, st, [.deleteUsage])
  else if strStartsWith input "/" then (true, st, [.unknownCommand input])
  else (true, conversationalTurn st input ex)

/-! ## Claims about the command dispatcher -/

/-- C5: the `/load` dispatch.  The dispatcher only recognizes the listing
form through the pattern `"/load "` with a trailing space, so the bare
input `"/load"` falls through to the unknown-command branch and does not
list sessions (first two conjuncts, the failing input); `"/load "` does
list (third conjunct); and for a nonempty id, `load_session` saves the
current session under the old identifier, switches to the new identifier,
then loads from the just-saved store — creating a fresh empty session
when no record exists (fourth conjunct), with `/load <id>` dispatching to
it (fifth conjunct). -/
theorem load_dispatch_behavior :
    (handleCommand ⟨⟨"s1", [], 100⟩, [("s2", [Msg.user "x"])]⟩ "/load" (.error "e") =
      (true, ⟨⟨"s1", [], 100⟩, [("s2", [Msg.user "x"])]⟩, [.unknownCommand "/load"])) ∧
    (Event.listedSessions ∉
      (handleCommand ⟨⟨"s1", [], 100⟩, [("s2", [Msg.user "x"])]⟩ "/load" (.error "e")).2.2) ∧
    (handleCommand ⟨⟨"s1", [], 100⟩, [("s2", [Msg.user "x"])]⟩ "/load " (.error "e") =
      (true, ⟨⟨"s1", [], 100⟩, [("s2", [Msg.user "x"])]⟩, [.listedSessions])) ∧
    (∀ (st : CliState) (sid : String),
      loadSession st sid =
        (⟨⟨sid, (storeLoad (storeSave st.store st.ctx.sessionId st.ctx.messages) sid).getD [],
            st.ctx.maxMessages⟩,
          storeSave st.store st.ctx.sessionId st.ctx.messages⟩,
         match storeLoad (storeSave st.store st.ctx.sessionId st.ctx.messages) sid with
         | some _ => [.loadedSession sid]
         | none => [.createdNewSession sid])) ∧
    (∀ (st : CliState) (ex : Except String AgentResponse),
      handleCommand st "/load s2" ex = (true, loadSession st "s2")) := by
  refine ⟨by decide, by decide, by decide, ?_, fun _ _ => rfl⟩
  intro st sid
  cases h : storeLoad (storeSave st.store st.ctx.sessionId st.ctx.messages) sid with
  | some msgs => simp [loadSession, h]
  | none => simp [loadSession, h]

/-- C6: `/delete <id>` on the active session identifier always takes the
forbidden branch: the state and the store are returned untouched and no
store delete operation runs. -/
theorem delete_active_forbidden :
    (∀ (st : CliState) (sid : String), sid = st.ctx.sessionId →
      deleteSession st sid = (st, [.deleteForbidden])) ∧
    (∀ (st : CliState) (ex : Except String AgentResponse),
      st.ctx.sessionId = "s1" →
      handleCommand st "/delete s1" ex = (true, st, [.deleteForbidden])) := by
  constructor
  · intro st sid h
    simp [deleteSession, h]
  · intro st ex h
    show (true, deleteSession st "s1") = _
    simp [deleteSession, h]

/-- Witness for C6: deleting the active session "s1" is refused and leaves
the store record intact, both through `delete_session` directly and
through the dispatcher. -/
theorem delete_active_forbidden_witness :
    ("s1" = (⟨⟨"s1", [Msg.user "hi"], 100⟩, [("s1", [Msg.user "hi"])]⟩ : CliState).ctx.sessionId) ∧
    (deleteSession ⟨⟨"s1", [Msg.user "hi"], 100⟩, [("s1", [Msg.user "hi"])]⟩ "s1" =
      (⟨⟨"s1", [Msg.user "hi"], 100⟩, [("s1", [Msg.user "hi"])]⟩, [.deleteForbidden])) ∧
    (handleCommand ⟨⟨"s1", [], 100⟩, []⟩ "/delete s1" (.error "e") =
      (true, ⟨⟨"s1", [], 100⟩, []⟩, [.deleteForbidden])) :=
  ⟨rfl,
   delete_active_forbidden.1 ⟨⟨"s1", [Msg.user "hi"], 100⟩, [("s1", [Msg.user "hi"])]⟩ "s1" rfl,
   delete_active_forbidden.2 ⟨⟨"s1", [], 100⟩, []⟩ (.error "e") rfl⟩

/-- C7: one conversational turn.  The user message is appended first in
both outcomes; on success the assistant reply is appended and the session
is saved; on failure the store is untouched, the identifier is unchanged,
the log holds only the extra user message, and only the failure is
reported.  The dispatcher routes every non-slash input there. -/
theorem conversational_turn_frame :
    (∀ (st : CliState) (input : String) (r : AgentResponse),
      conversationalTurn st input (.ok r) =
        (⟨⟨st.ctx.sessionId,
            addMessage (addMessage st.ctx.messages (Msg.user input) st.ctx.maxMessages)
              (Msg.assistant r.response) st.ctx.maxMessages, st.ctx.maxMessages⟩,
          storeSave st.store st.ctx.sessionId
            (addMessage (addMessage st.ctx.messages (Msg.user input) st.ctx.maxMessages)
              (Msg.assistant r.response) st.ctx.maxMessages)⟩,
         [.assistantResponded r.response r.totalTokens])) ∧
    (∀ (st : CliState) (input : String) (e : String),
      (conversationalTurn st input (.error e)).1.store = st.store ∧
      (conversationalTurn st input (.error e)).1.ctx.sessionId = st.ctx.sessionId ∧
      (conversationalTurn st input (.error e)).1.ctx.messages =
        addMessage st.ctx.messages (Msg.user input) st.ctx.maxMessages ∧
      (conversationalTurn st input (.error e)).2 = [.exchangeFailed e]) ∧
    (∀ (st : CliState) (ex : Except String AgentResponse),
      handleCommand st "hello" ex = (true, conversationalTurn st "hello" ex)) :=
  ⟨fun _ _ _ => rfl, fun _ _ _ => ⟨rfl, rfl, rfl, rfl⟩, fun _ _ => rfl⟩

/-! ## Data model of `src/hooks.rs` -/

/-- Embedding of `SessionIdHook` (hooks.rs, lines 8–12). -/
structure SessionIdHook where
  session_id : String
  enable_logging : Bool
deriving DecidableEq

/-- Embedding of `SessionIdHook::log` (hooks.rs, lines 27–38): the lines
printed (none when logging is disabled). -/
def SessionIdHook.log (h : SessionIdHook) (message : String) : List String :=
  if h.enable_logging then ["[Session " ++ h.session_id ++ "] " ++ message] else []

/-- Aggregate token usage as `GetTokenUsage::token_usage` reports it; the
hook only reads `total_tokens`. -/
structure TokenUsage where
  total_tokens : Nat
deriving DecidableEq

/-- Embedding of `SessionIdHook::on_stream_completion_response_finish`
(hooks.rs, lines 160–171).  The source formats
`_response.token_usage().unwrap().total_tokens` before logging; `unwrap`
of `None` is a panic, modelled as `none` — a completing call returns
`some` printed lines. -/
def onStreamCompletionResponseFinish (h : SessionIdHook)
    (usage : Option TokenUsage) : Option (List String) :=
  match usage with
  | none => none
  | some u =>
    some (h.log ("Stream completed: " ++ toString u.total_tokens))

/-- User-side content block of a `rig` message; only `Text` carries prompt
text that the hook extracts. -/
inductive UserContent where
  | text (t : String)
  | other
deriving DecidableEq

/-- Assistant-side content block of a `rig` message. -/
inductive AssistantContent where
  | text (t : String)
  | other
deriving DecidableEq

/-- A `rig::completion::Message` as matched by the hook. -/
inductive RigMessage where
  | user (content : List UserContent)
  | assistant (content : List AssistantContent)
deriving DecidableEq

/-- `Vec::join("\n")` on the extracted text blocks. -/
def joinTextLines : List String → String
  | [] => ""
  | [s] => s
  | s :: rest => s ++ "\n" ++ joinTextLines rest

/-- The text extraction of `on_completion_call` (hooks.rs, lines 90–113):
keep the `Text` blocks and join them with newlines. -/
def extractPromptText : RigMessage → String
  | .user content =>
    joinTextLines (content.filterMap fun c =>
      match c with
      | .text t => some t
      | .other => none)
  | .assistant content =>
    joinTextLines (content.filterMap fun c =>
      match c with
      | .text t => some t
      | .other => none)

/-- The first `n` bytes of the UTF-8 encoding of a character list, decoded
back to characters — Rust `&s[..n]`.  `none` when `n` is not a character
boundary (or past the end), which in Rust is a panic. -/
def takeBytes : List Char → Nat → Option (List Char)
  | _, 0 => some []
  | [], _ + 1 => none
  | c :: cs, n + 1 =>
    if c.utf8Size ≤ n + 1 then
      match takeBytes cs (n + 1 - c.utf8Size) with
      | some r => some (c :: r)
      | none => none
    else none

/-- Embedding of `SessionIdHook::on_completion_call` (hooks.rs,
lines 84–127): extract the prompt text, truncate it to its first 100
bytes when its byte length exceeds 100 (a panic — `none` — when byte 100
falls inside a multi-byte character), and log one line. -/
def onCompletionCall (h : SessionIdHook) (prompt : RigMessage)
    (history : List RigMessage) : Option (List String) :=
  let prompt_text := extractPromptText prompt
  let truncated :=
    if 100 < utf8Len prompt_text.data then
      (takeBytes prompt_text.data 100).map fun cs => String.mk cs ++ "..."
    else some prompt_text
  match truncated with
  | none => none
  | some tr =>
    some (h.log ("Sending prompt (history: " ++ toString history.length ++
      " messages): " ++ tr))

/-! ## Claims about the observation hook -/

/-- C8: the stream-finish notification.  The source formats
`token_usage().unwrap().total_tokens` before the logging-enabled check
ever runs, so a streaming response carrying no token-usage information
makes the hook panic (first conjunct, for every session id and logging
flag); with usage present it merely logs and returns (second conjunct),
never touching anything else. -/
theorem stream_finish_usage_panic :
    (∀ (sid : String) (b : Bool),
      onStreamCompletionResponseFinish ⟨sid, b⟩ none = none) ∧
    (∀ (h : SessionIdHook) (u : TokenUsage),
      onStreamCompletionResponseFinish h (some u) =
        some (h.log ("Stream completed: " ++ toString u.total_tokens))) :=
  ⟨fun _ _ => rfl, fun _ _ => rfl⟩

set_option maxRecDepth 10000 in
/-- C9: the before-prompt notification.  Truncation slices the prompt text
at byte index 100; on a prompt of 34 three-byte characters (102 bytes,
boundaries only at multiples of 3) the slice panics, with logging enabled
or disabled — while a 120-byte ASCII prompt truncates and completes. -/
theorem completion_call_slice_panic :
    (onCompletionCall ⟨"s", true⟩
      (.user [.text (String.mk (List.replicate 34 '€'))]) [] = none) ∧
    (onCompletionCall ⟨"s", false⟩
      (.user [.text (String.mk (List.replicate 34 '€'))]) [] = none) ∧
    ((onCompletionCall ⟨"s", true⟩
      (.user [.text (String.mk (List.replicate 120 'a'))]) []).isSome = true) ∧
    (utf8Len (String.mk (List.replicate 34 '€')).data = 102) := by
  refine ⟨by decide, by decide, by decide, by decide⟩

/-! ## The bounded multi-turn tool cycle (C4) -/

/-- Embedding of `AgentType` (module `agent`), the closed set of provider
variants matched in the conversational branch of `KotaCli::handle_command`
(command.rs, lines 62–103). -/
inductive AgentType where
  | openAI
  | anthropic
  | cohere
  | deepSeek
  | ollama
deriving DecidableEq

/-- The per-variant turn cap: every arm of the provider match in
`handle_command` builds its stream with `.multi_turn(20)`
(command.rs, lines 67, 75, 83, 91, 99). -/
def multiTurnCap : AgentType → Nat
  | .openAI => 20
  | .anthropic => 20
  | .cohere => 20
  | .deepSeek => 20
  | .ollama => 20

/-- What the model produces in one turn of the cycle: either tool-call
requests or a final answer. -/
inductive ProviderTurn where
  | toolRequests (calls : List String)
  | finalAnswer (text : String)

/-- Outcome of one streamed exchange, with the number of provider turns
consumed. -/
inductive ExchangeOutcome where
  | answer (text : String) (turnsUsed : Nat)
  | turnLimitExceeded (turnsUsed : Nat)
deriving DecidableEq

/-- Modelled from the spec: the bounded multi-turn tool cycle run by
`stream_prompt(...).multi_turn(cap)` — the loop body lives in the external
`rig` crate, not in the published sources.  Each turn queries the
provider; a final answer ends the exchange, a tool request consumes one of
the remaining turns, and exhausting the cap surfaces the distinct
turn-limit-exceeded outcome instead of looping. -/
def runMultiTurn (provider : Nat → ProviderTurn) : Nat → Nat → ExchangeOutcome
  | 0, used => .turnLimitExceeded used
  | fuel + 1, used =>
    match provider used with
    | .finalAnswer t => .answer t (used + 1)
    | .toolRequests _ => runMultiTurn provider fuel (used + 1)

/-- One streamed exchange for a configured provider variant: the cycle
starts at turn zero with the cap the dispatcher passes for that variant. -/
def streamExchange (a : AgentType) (provider : Nat → ProviderTurn) : ExchangeOutcome :=
  runMultiTurn provider (multiTurnCap a) 0

/-- A provider that only ever requests tools drives the cycle through all
of its fuel and ends in the turn-limit outcome. -/
theorem runMultiTurn_tools (provider : Nat → ProviderTurn)
    (hp : ∀ n, ∃ calls, provider n = .toolRequests calls) :
    ∀ (fuel used : Nat), runMultiTurn provider fuel used = .turnLimitExceeded (used + fuel)
  | 0, used => by simp [runMultiTurn]
  | fuel + 1, used => by
    obtain ⟨cs, hcs⟩ := hp used
    rw [runMultiTurn, hcs, runMultiTurn_tools provider hp fuel (used + 1)]
    have harith : used + 1 + fuel = used + (fuel + 1) := by omega
    rw [harith]

/-- C4: every provider variant runs the conversational exchange with a cap
of exactly 20 turns, and a provider that requests tool calls on every turn
terminates after exactly 20 turns in the distinct turn-limit-exceeded
outcome. -/
theorem turn_limit_cap :
    (∀ a : AgentType, multiTurnCap a = 20) ∧
    (∀ (a : AgentType) (provider : Nat → ProviderTurn),
      (∀ n, ∃ calls, provider n = .toolRequests calls) →
      streamExchange a provider = .turnLimitExceeded 20) := by
  constructor
  · intro a; cases a <;> rfl
  · intro a provider hp
    have h20 : multiTurnCap a = 20 := by cases a <;> rfl
    rw [streamExchange, h20, runMultiTurn_tools provider hp 20 0]

/-- Witness for C4: the constant tool-requesting provider exceeds the turn
limit after exactly 20 turns on a concrete variant. -/
theorem turn_limit_cap_witness :
    (∀ n : Nat, ∃ calls : List String,
      (fun _ : Nat => ProviderTurn.toolRequests ["grep_search"]) n =
        ProviderTurn.toolRequests calls) ∧
    streamExchange .anthropic (fun _ => ProviderTurn.toolRequests ["grep_search"]) =
      .turnLimitExceeded 20 :=
  ⟨fun _ => ⟨["grep_search"], rfl⟩,
   turn_limit_cap.2 .anthropic (fun _ => ProviderTurn.toolRequests ["grep_search"])
     (fun _ => ⟨["grep_search"], rfl⟩)⟩
